import Mathlib

/-!
Shallow embedding of the wallrs documentation-terminal core
(`src/docs/script.js`): the command interpreter (`processCommand`), the
output helpers (`addCommandOutput`, `addTextOutput`), the Enter-submission
handler, tab-completion (`autoComplete`) and history navigation
(`navigateHistory`), together with proofs of the specification claims.

Strings are Lean `String`s. The JavaScript string primitives used by the
source (`trim`, `toLowerCase`, `startsWith`, `substring`, `Array.join`)
are embedded as structurally recursive functions on the character list
(`jsTrim`, `jsToLower`, `jsStartsWith`, `jsSubstringFrom`, `jsJoin`);
on the ASCII data the program handles these coincide with the JavaScript
built-ins (JavaScript indexes UTF-16 code units, which for ASCII are
exactly the characters).
The DOM output area is modelled as a list of rendered lines (the standing
input line is kept implicit: `output = []` means only the input line is
present), plus a trace of append/clear events so that ordering statements
("the echo is appended before any action output") are expressible even for
`clear`, which removes lines after they were appended.

The set of section panels and navigation-menu entries lives in the HTML
document, which is not part of the sources; it is modelled from the spec
(section 3, ActiveSection): one panel per documented navigation target.
-/

/-- The JavaScript `String.prototype.trim`: remove whitespace from both
ends of the string. -/
def jsTrim (s : String) : String :=
  String.mk (((s.data.dropWhile Char.isWhitespace).reverse.dropWhile
    Char.isWhitespace).reverse)

/-- The JavaScript `String.prototype.toLowerCase`, character by character
(ASCII case folding). -/
def jsToLower (s : String) : String :=
  String.mk (s.data.map Char.toLower)

/-- The JavaScript `String.prototype.startsWith`. -/
def jsStartsWith (s pre : String) : Bool :=
  pre.data.isPrefixOf s.data

/-- The JavaScript `String.prototype.substring(n)`: the suffix starting at
index `n`. -/
def jsSubstringFrom (s : String) (n : Nat) : String :=
  String.mk (s.data.drop n)

/-- The JavaScript `Array.prototype.join(sep)`. -/
def jsJoin (sep : String) : List String → String
  | [] => ""
  | [x] => x
  | x :: y :: xs => x ++ sep ++ jsJoin sep (y :: xs)

/-- One rendered line of the output area: either the echo of a submitted
command (`addCommandOutput`) or a text line with a CSS class name
(`addTextOutput`; the class is `""` when the call passes none). -/
inductive OutputLine where
  | echo (command : String)
  | text (content : String) (className : String)
deriving DecidableEq

/-- Whether a rendered line is a command echo. -/
def OutputLine.isEcho : OutputLine → Bool
  | .echo _ => true
  | .text _ _ => false

/-- An event on the output area: appending one line, or removing every
line except the standing input line (the `clear` branch). -/
inductive LogOp where
  | append (line : OutputLine)
  | clear
deriving DecidableEq

/-- Modelled from the spec: the section panels of the host document, one
per documented navigation target (`commands`, `config`, `demo`,
`keybindings`, `friendly`); the HTML defining them is not in the sources. -/
inductive SectionId where
  | commands | config | demo | keybindings | friendly
deriving DecidableEq

/-- The whole interpreter/editor state: the input buffer, command history
with browsing cursor and saved live-buffer snapshot, the output area (with
its event trace), the visible section panels, the active navigation-menu
entries, and the clock reading used by the `date` command. -/
structure TermState where
  buffer : String
  commandHistory : List String
  historyIndex : Int
  currentInput : String
  output : List OutputLine
  trace : List LogOp
  visibleSections : List SectionId
  activeNav : List SectionId
  now : String
deriving DecidableEq

/-- The `availableCommands` array, in source order. -/
def availableCommands : List String :=
  ["help", "clear", "config", "keybindings", "keys", "bindings", "demo",
   "about", "date", "echo", "exit", "friends", "friendly", "projects"]

/-- The `addCommandOutput` helper: append the echo line for a command. -/
def addCommandOutput (command : String) (s : TermState) : TermState :=
  { s with output := s.output ++ [OutputLine.echo command],
           trace := s.trace ++ [LogOp.append (OutputLine.echo command)] }

/-- The `addTextOutput` helper: append one text line with a class name. -/
def addTextOutput (content className : String) (s : TermState) : TermState :=
  { s with output := s.output ++ [OutputLine.text content className],
           trace := s.trace ++ [LogOp.append (OutputLine.text content className)] }

/-- The `clear` branch: remove every output line except the standing
input line. -/
def clearOutput (s : TermState) : TermState :=
  { s with output := [], trace := s.trace ++ [LogOp.clear] }

/-- A navigation branch of `processCommand`: remove `active` from every
navigation entry and set it on the target, hide every section panel and
show the target panel. -/
def navigateTo (target : SectionId) (s : TermState) : TermState :=
  { s with activeNav := [target], visibleSections := [target] }

/-- The `processCommand` switch: the source computes the lower-cased
command once (`const cmd = command.toLowerCase()`) and matches on it; the
pure lower-casing is written inline here. The `date` branch renders the
ambient clock reading. -/
def processCommand (command : String) (s : TermState) : TermState :=
  if jsToLower command = "help" then navigateTo SectionId.commands s
  else if jsToLower command = "clear" then clearOutput s
  else if jsToLower command = "config" then navigateTo SectionId.config s
  else if jsToLower command = "demo" then navigateTo SectionId.demo s
  else if jsToLower command = "about" then
    addTextOutput "🏳️‍⚧️ Built with Rust 🏳️‍⚧️ " ""
      (addTextOutput "A TUI app for changing the wallpaper on both x11 and wayland-." ""
        (addTextOutput "Wallrs Documentation Terminal v0.1.7" "" s))
  else if jsToLower command = "date" then addTextOutput s.now "" s
  else if jsToLower command = "exit" then
    addTextOutput "Use the close button in the title bar or close the browser tab." ""
      (addTextOutput "This terminal cannot be closed from here." "error" s)
  else if jsToLower command = "keybindings" ∨ jsToLower command = "keys" ∨
      jsToLower command = "bindings" then
    navigateTo SectionId.keybindings s
  else if jsToLower command = "projects" ∨ jsToLower command = "friendly" ∨
      jsToLower command = "friends" then
    navigateTo SectionId.friendly s
  else if jsToLower command = "" then s
  else if jsStartsWith (jsToLower command) "echo " then
    addTextOutput (jsSubstringFrom command 5) "" s
  else
    addTextOutput "Type \"help\" for available commands" ""
      (addTextOutput ("Command not found: " ++ command) "error" s)

/-- The Enter branch of the keydown handler: trim the buffer; if non-empty,
prepend it to the history, reset the cursor, echo it, process it and clear
the buffer. -/
def submit (s : TermState) : TermState :=
  let command := jsTrim s.buffer
  if command = "" then s
  else
    let s1 : TermState :=
      { s with commandHistory := command :: s.commandHistory, historyIndex := -1 }
    let s2 := addCommandOutput command s1
    let s3 := processCommand command s2
    { s3 with buffer := "" }

/-- A sequence of Enter submissions, each typed into the buffer first. -/
def submitMany (inputs : List String) (s : TermState) : TermState :=
  inputs.foldl (fun t r => submit { t with buffer := r }) s

/-- The Tab branch: complete a single prefix match to the alias plus one
space, list multiple matches on one informational line, otherwise do
nothing. -/
def autoComplete (s : TermState) : TermState :=
  let input := jsTrim s.buffer
  if input = "" then s
  else
    match availableCommands.filter (fun cmd => jsStartsWith cmd (jsToLower input)) with
    | [m] => { s with buffer := m ++ " " }
    | [] => s
    | ms => addTextOutput ("Possible completions: " ++ jsJoin ", " ms) "directory" s

/-- The ArrowUp/ArrowDown branches (`navigateHistory`): browse the history
with the cursor, snapshotting the live buffer when browsing begins and
restoring it when the cursor returns to `-1`. -/
def navigateHistory (direction : String) (s : TermState) : TermState :=
  if s.commandHistory.length = 0 then s
  else if direction = "up" then
    if s.historyIndex < (s.commandHistory.length : Int) - 1 then
      let s' := if s.historyIndex = -1 then { s with currentInput := s.buffer } else s
      { s' with historyIndex := s'.historyIndex + 1,
                buffer := s'.commandHistory.getD (s'.historyIndex + 1).toNat "" }
    else s
  else if direction = "down" then
    if s.historyIndex > 0 then
      { s with historyIndex := s.historyIndex - 1,
               buffer := s.commandHistory.getD (s.historyIndex - 1).toNat "" }
    else if s.historyIndex = 0 then
      { s with historyIndex := -1, buffer := s.currentInput }
    else s
  else s

/-- The state on page load: empty buffer, history, and output; the cursor
not browsing; the commands panel showing. -/
def initState : TermState :=
  { buffer := "", commandHistory := [], historyIndex := -1, currentInput := "",
    output := [], trace := [], visibleSections := [SectionId.commands],
    activeNav := [SectionId.commands], now := "" }

/-- The alias table of the NavigateToSection branches of `processCommand`,
each alias paired with its target section. -/
def navAliases : List (String × SectionId) :=
  [("help", SectionId.commands), ("config", SectionId.config),
   ("demo", SectionId.demo), ("keybindings", SectionId.keybindings),
   ("keys", SectionId.keybindings), ("bindings", SectionId.keybindings),
   ("projects", SectionId.friendly), ("friendly", SectionId.friendly),
   ("friends", SectionId.friendly)]

/-- The exact-match cases of the `processCommand` switch, including the
defensive empty case, in source order. -/
def switchCases : List String :=
  ["help", "clear", "config", "demo", "about", "date", "exit",
   "keybindings", "keys", "bindings", "projects", "friendly", "friends", ""]

lemma navHist_up_fixed (s : TermState)
    (h : (s.commandHistory.length : Int) - 1 ≤ s.historyIndex) :
    navigateHistory "up" s = s := by
  by_cases h0 : s.commandHistory.length = 0
  · simp [navigateHistory, h0]
  · have h2 : ¬ (s.historyIndex < (s.commandHistory.length : Int) - 1) := by omega
    simp [navigateHistory, h0, h2]

lemma navHist_up_live (s : TermState) (h : s.historyIndex = -1)
    (hn : s.commandHistory ≠ []) :
    navigateHistory "up" s =
      { s with historyIndex := 0, currentInput := s.buffer,
               buffer := s.commandHistory.getD 0 "" } := by
  have h0 : ¬ (s.commandHistory.length = 0) := by
    simpa [List.length_eq_zero] using hn
  have h1 : s.historyIndex < (s.commandHistory.length : Int) - 1 := by omega
  simp [navigateHistory, h0, h1, h]

lemma navHist_up_step (s : TermState) (j : Nat) (h : s.historyIndex = (j : Int))
    (hlt : (j : Int) < (s.commandHistory.length : Int) - 1) :
    navigateHistory "up" s =
      { s with historyIndex := (j : Int) + 1,
               buffer := s.commandHistory.getD (j + 1) "" } := by
  have h0 : ¬ (s.commandHistory.length = 0) := by omega
  have h1 : s.historyIndex < (s.commandHistory.length : Int) - 1 := by omega
  have h2 : ¬ (s.historyIndex = -1) := by omega
  have h3 : ((j : Int) + 1).toNat = j + 1 := by omega
  simp [navigateHistory, h0, h1, hlt, h2, h, h3]

lemma navHist_up_stepInt (s : TermState) (hm : ¬ s.historyIndex = -1)
    (hlt : s.historyIndex < (s.commandHistory.length : Int) - 1)
    (h0 : ¬ s.commandHistory.length = 0) :
    navigateHistory "up" s =
      { s with historyIndex := s.historyIndex + 1,
               buffer := s.commandHistory.getD (s.historyIndex + 1).toNat "" } := by
  simp [navigateHistory, h0, hlt, hm]

lemma navHist_down_step (s : TermState) (j : Nat)
    (h : s.historyIndex = (j : Int) + 1) (hn : s.commandHistory ≠ []) :
    navigateHistory "down" s =
      { s with historyIndex := (j : Int),
               buffer := s.commandHistory.getD j "" } := by
  have h0 : ¬ (s.commandHistory.length = 0) := by
    simpa [List.length_eq_zero] using hn
  have h1 : s.historyIndex > 0 := by omega
  have h3 : (s.historyIndex - 1).toNat = j := by omega
  have h4 : s.historyIndex - 1 = (j : Int) := by omega
  simp [navigateHistory, h0, h1, h3, h4]

lemma navHist_down_live (s : TermState) (h : s.historyIndex = 0)
    (hn : s.commandHistory ≠ []) :
    navigateHistory "down" s =
      { s with historyIndex := -1, buffer := s.currentInput } := by
  have h0 : ¬ (s.commandHistory.length = 0) := by
    simpa [List.length_eq_zero] using hn
  have h1 : ¬ (s.historyIndex > 0) := by omega
  simp [navigateHistory, h0, h1, h]

lemma navHist_ups (k : Nat) :
    ∀ (s : TermState) (j : Nat), s.historyIndex = (j : Int) →
      s.buffer = s.commandHistory.getD j "" →
      ((j + k : Nat) : Int) ≤ (s.commandHistory.length : Int) - 1 →
      (navigateHistory "up")^[k] s =
        { s with historyIndex := ((j + k : Nat) : Int),
                 buffer := s.commandHistory.getD (j + k) "" } := by
  induction k with
  | zero =>
    intro s j h hb _
    obtain ⟨buf, hist, idx, cur, out, tr, vis, nav, now⟩ := s
    simp only [TermState.mk.injEq] at h hb ⊢
    simp [Function.iterate_zero, h, hb]
  | succ k ih =>
    intro s j h hb hle
    rw [Function.iterate_succ_apply]
    rw [navHist_up_step s j h (by omega)]
    have hstep := ih { s with historyIndex := (j : Int) + 1,
                              buffer := s.commandHistory.getD (j + 1) "" }
      (j + 1) (by push_cast; ring) rfl (by push_cast at hle ⊢; omega)
    rw [hstep]
    have harith : j + 1 + k = j + (k + 1) := by omega
    simp [harith]

lemma navHist_downs (k : Nat) :
    ∀ s : TermState, s.commandHistory ≠ [] →
      s.historyIndex = (k : Int) - 1 → 1 ≤ k →
      (navigateHistory "down")^[k] s =
        { s with historyIndex := -1, buffer := s.currentInput } := by
  induction k with
  | zero => intro s _ _ h1; omega
  | succ k ih =>
    intro s hn h h1
    rcases Nat.eq_zero_or_pos k with hk | hk
    · subst hk
      have h0 : s.historyIndex = 0 := by omega
      simp [Function.iterate_succ_apply, Function.iterate_zero,
        navHist_down_live s h0 hn]
    · obtain ⟨j, rfl⟩ : ∃ j, k = j + 1 := ⟨k - 1, by omega⟩
      rw [Function.iterate_succ_apply]
      rw [navHist_down_step s j (by push_cast at h ⊢; omega) hn]
      have hstep := ih { s with historyIndex := (j : Int),
                                buffer := s.commandHistory.getD j "" }
        (by simpa using hn) (by push_cast; omega) (by omega)
      rw [hstep]

set_option maxHeartbeats 1000000 in
lemma processCommand_trace (c : String) (s : TermState) :
    ∃ ops : List LogOp, (processCommand c s).trace = s.trace ++ ops ∧
      ∀ l : OutputLine, LogOp.append l ∈ ops → l.isEcho = false := by
  unfold processCommand
  by_cases h1 : jsToLower c = "help"
  · rw [if_pos h1]; exact ⟨[], by simp [navigateTo], by simp⟩
  rw [if_neg h1]
  by_cases h2 : jsToLower c = "clear"
  · rw [if_pos h2]; exact ⟨[LogOp.clear], by simp [clearOutput], by simp⟩
  rw [if_neg h2]
  by_cases h3 : jsToLower c = "config"
  · rw [if_pos h3]; exact ⟨[], by simp [navigateTo], by simp⟩
  rw [if_neg h3]
  by_cases h4 : jsToLower c = "demo"
  · rw [if_pos h4]; exact ⟨[], by simp [navigateTo], by simp⟩
  rw [if_neg h4]
  by_cases h5 : jsToLower c = "about"
  · rw [if_pos h5]
    refine ⟨[LogOp.append (OutputLine.text "Wallrs Documentation Terminal v0.1.7" ""),
      LogOp.append (OutputLine.text
        "A TUI app for changing the wallpaper on both x11 and wayland-." ""),
      LogOp.append (OutputLine.text "🏳️‍⚧️ Built with Rust 🏳️‍⚧️ " "")],
      by simp [addTextOutput], ?_⟩
    intro l hl
    simp at hl
    rcases hl with rfl | rfl | rfl <;> rfl
  rw [if_neg h5]
  by_cases h6 : jsToLower c = "date"
  · rw [if_pos h6]
    refine ⟨[LogOp.append (OutputLine.text s.now "")], by simp [addTextOutput], ?_⟩
    intro l hl
    simp at hl
    subst hl
    rfl
  rw [if_neg h6]
  by_cases h7 : jsToLower c = "exit"
  · rw [if_pos h7]
    refine ⟨[LogOp.append (OutputLine.text
        "This terminal cannot be closed from here." "error"),
      LogOp.append (OutputLine.text
        "Use the close button in the title bar or close the browser tab." "")],
      by simp [addTextOutput], ?_⟩
    intro l hl
    simp at hl
    rcases hl with rfl | rfl <;> rfl
  rw [if_neg h7]
  by_cases h8 : jsToLower c = "keybindings" ∨ jsToLower c = "keys" ∨
      jsToLower c = "bindings"
  · rw [if_pos h8]; exact ⟨[], by simp [navigateTo], by simp⟩
  rw [if_neg h8]
  by_cases h9 : jsToLower c = "projects" ∨ jsToLower c = "friendly" ∨
      jsToLower c = "friends"
  · rw [if_pos h9]; exact ⟨[], by simp [navigateTo], by simp⟩
  rw [if_neg h9]
  by_cases h10 : jsToLower c = ""
  · rw [if_pos h10]; exact ⟨[], by simp, by simp⟩
  rw [if_neg h10]
  by_cases h11 : jsStartsWith (jsToLower c) "echo " = true
  · rw [if_pos h11]
    refine ⟨[LogOp.append (OutputLine.text (jsSubstringFrom c 5) "")],
      by simp [addTextOutput], ?_⟩
    intro l hl
    simp at hl
    subst hl
    rfl
  rw [if_neg h11]
  refine ⟨[LogOp.append (OutputLine.text ("Command not found: " ++ c) "error"),
    LogOp.append (OutputLine.text "Type \"help\" for available commands" "")],
    by simp [addTextOutput], ?_⟩
  intro l hl
  simp at hl
  rcases hl with rfl | rfl <;> rfl

lemma processCommand_fields (c : String) (s : TermState) :
    (processCommand c s).commandHistory = s.commandHistory ∧
    (processCommand c s).historyIndex = s.historyIndex ∧
    (processCommand c s).currentInput = s.currentInput ∧
    (processCommand c s).buffer = s.buffer := by
  unfold processCommand
  by_cases h1 : jsToLower c = "help"
  · rw [if_pos h1]; simp [navigateTo]
  rw [if_neg h1]
  by_cases h2 : jsToLower c = "clear"
  · rw [if_pos h2]; simp [clearOutput]
  rw [if_neg h2]
  by_cases h3 : jsToLower c = "config"
  · rw [if_pos h3]; simp [navigateTo]
  rw [if_neg h3]
  by_cases h4 : jsToLower c = "demo"
  · rw [if_pos h4]; simp [navigateTo]
  rw [if_neg h4]
  by_cases h5 : jsToLower c = "about"
  · rw [if_pos h5]; simp [addTextOutput]
  rw [if_neg h5]
  by_cases h6 : jsToLower c = "date"
  · rw [if_pos h6]; simp [addTextOutput]
  rw [if_neg h6]
  by_cases h7 : jsToLower c = "exit"
  · rw [if_pos h7]; simp [addTextOutput]
  rw [if_neg h7]
  by_cases h8 : jsToLower c = "keybindings" ∨ jsToLower c = "keys" ∨
      jsToLower c = "bindings"
  · rw [if_pos h8]; simp [navigateTo]
  rw [if_neg h8]
  by_cases h9 : jsToLower c = "projects" ∨ jsToLower c = "friendly" ∨
      jsToLower c = "friends"
  · rw [if_pos h9]; simp [navigateTo]
  rw [if_neg h9]
  by_cases h10 : jsToLower c = ""
  · rw [if_pos h10]; simp
  rw [if_neg h10]
  by_cases h11 : jsStartsWith (jsToLower c) "echo " = true
  · rw [if_pos h11]; simp [addTextOutput]
  rw [if_neg h11]
  simp [addTextOutput]

lemma submit_history (s : TermState) (r : String) :
    (submit { s with buffer := r }).commandHistory =
      if jsTrim r = "" then s.commandHistory
      else jsTrim r :: s.commandHistory := by
  by_cases h : jsTrim r = ""
  · simp [submit, h]
  · rw [if_neg h]
    have hpc := (processCommand_fields (jsTrim r)
      (addCommandOutput (jsTrim r)
        { s with buffer := r, commandHistory := jsTrim r :: s.commandHistory,
                 historyIndex := -1 })).1
    simp [submit, h, addCommandOutput] at hpc ⊢
    exact hpc

lemma submitMany_history (inputs : List String) (s : TermState) :
    (submitMany inputs s).commandHistory =
      ((inputs.filter (fun r => !(jsTrim r = ""))).map jsTrim).reverse ++
        s.commandHistory := by
  induction inputs generalizing s with
  | nil => simp [submitMany]
  | cons r rs ih =>
    have hstep : submitMany (r :: rs) s =
        submitMany rs (submit { s with buffer := r }) := by
      simp [submitMany]
    rw [hstep, ih, submit_history]
    by_cases h : jsTrim r = ""
    · simp [h]
    · simp [h]

/-- C1, counterexample: submitting the buffer `"help "` (trailing space,
trimmed text non-empty) appends an echo line rendering the trimmed text
`"help"`, not the original submitted text `"help "`, because the keydown
handler trims the line before echoing it. -/
theorem C1_counterexample :
    (submit { initState with buffer := "help " }).output =
      [OutputLine.echo "help"] ∧
    OutputLine.echo "help " ∉
      (submit { initState with buffer := "help " }).output ∧
    "help " ≠ "help" :=
  ⟨rfl, by decide, by decide⟩

/-- C1 (amended): for every submission whose trimmed text is non-empty,
exactly one echo line is appended to the output log — rendering the
trimmed submitted text, case preserved and not lower-cased — and it is
appended before any action-specific output of that submission (no
action-specific append is an echo line). -/
theorem C1_echo_first (s : TermState) (h : ¬ jsTrim s.buffer = "") :
    ∃ rest : List LogOp,
      (submit s).trace = s.trace ++
        (LogOp.append (OutputLine.echo (jsTrim s.buffer)) :: rest) ∧
      ∀ l : OutputLine, LogOp.append l ∈ rest → l.isEcho = false := by
  obtain ⟨ops, hops, hecho⟩ := processCommand_trace (jsTrim s.buffer)
    (addCommandOutput (jsTrim s.buffer)
      { s with commandHistory := jsTrim s.buffer :: s.commandHistory,
               historyIndex := -1 })
  refine ⟨ops, ?_, hecho⟩
  simp [submit, h, addCommandOutput] at hops ⊢
  exact hops

/-- C1, witness: the amended theorem applied to the initial state with
buffer `"about"`. -/
theorem C1_echo_first_witness :
    ∃ rest : List LogOp,
      (submit { initState with buffer := "about" }).trace =
        ({ initState with buffer := "about" } : TermState).trace ++
          (LogOp.append (OutputLine.echo
            (jsTrim ({ initState with buffer := "about" } : TermState).buffer)) :: rest) ∧
      ∀ l : OutputLine, LogOp.append l ∈ rest → l.isEcho = false :=
  C1_echo_first { initState with buffer := "about" } (by decide)

/-- C2: after submitting any NavigateToSection alias (`help`, `config`,
`demo`, `keybindings`/`keys`/`bindings`, `projects`/`friendly`/`friends`),
exactly one section panel is visible — the documented target of the alias —
and exactly one navigation-menu entry is marked active: the visible-section
and active-entry lists are exactly the singleton of the target. -/
theorem C2_navigation (s : TermState) (a : String) (t : SectionId)
    (h : (a, t) ∈ navAliases) :
    (submit { s with buffer := a }).visibleSections = [t] ∧
    (submit { s with buffer := a }).activeNav = [t] := by
  fin_cases h <;> exact ⟨rfl, rfl⟩

/-- C2, witness: the theorem applied to the alias `keys` at the initial
state. -/
theorem C2_navigation_witness :
    (submit { initState with buffer := "keys" }).visibleSections =
      [SectionId.keybindings] ∧
    (submit { initState with buffer := "keys" }).activeNav =
      [SectionId.keybindings] :=
  C2_navigation initState "keys" SectionId.keybindings (by decide)

/-- C3, counterexample: submitting the line `echo   Hello World  ` appends
the payload `"  Hello World"`, not `"  Hello World  "`: the keydown handler
trims the line before the interpreter sees it, so the trailing whitespace
of the argument is lost. -/
theorem C3_counterexample :
    (submit { initState with buffer := "echo   Hello World  " }).output =
      [OutputLine.echo "echo   Hello World",
       OutputLine.text "  Hello World" ""] ∧
    OutputLine.text "  Hello World  " "" ∉
      (submit { initState with buffer := "echo   Hello World  " }).output :=
  ⟨rfl, by decide⟩

/-- C3 (amended): submitting the line `echo   Hello World  ` appends one
output line whose payload is exactly `"  Hello World"`: everything after
the first 5 characters of the trimmed line is passed through unmodified,
so leading whitespace beyond the separating space is preserved verbatim,
while the trailing whitespace is removed by the submission-time trim. -/
theorem C3_echo_payload (s : TermState) :
    (submit { s with buffer := "echo   Hello World  " }).output =
      s.output ++ [OutputLine.echo "echo   Hello World",
        OutputLine.text "  Hello World" ""] := by
  show (s.output ++ [OutputLine.echo "echo   Hello World"]) ++
    [OutputLine.text "  Hello World" ""] = _
  simp

/-- C4, counterexample: submitting the buffer `" help"` (non-empty trimmed
text) stores the trimmed text `"help"` at the head of the history, not the
raw submitted text `" help"`: the keydown handler trims the line before
prepending it. -/
theorem C4_counterexample :
    (submit { initState with buffer := " help" }).commandHistory =
      ["help"] ∧
    " help" ∉ (submit { initState with buffer := " help" }).commandHistory :=
  ⟨rfl, by decide⟩

/-- C4 (amended): after any sequence of submissions, the history equals
the reversed list of the trimmed texts of the submissions with non-empty
trimmed text, prepended to the prior history. Hence after N submissions
with non-empty trimmed text (interleaved with any number of
whitespace-only submissions) the history has grown by exactly N, its head
is the trimmed text of the most recent such submission, and no submission
removes or deduplicates entries. -/
theorem C4_history (inputs : List String) (s : TermState) :
    (submitMany inputs s).commandHistory =
      ((inputs.filter (fun r => !(jsTrim r = ""))).map jsTrim).reverse ++
        s.commandHistory ∧
    (submitMany inputs s).commandHistory.length =
      (inputs.filter (fun r => !(jsTrim r = ""))).length +
        s.commandHistory.length := by
  refine ⟨submitMany_history inputs s, ?_⟩
  rw [submitMany_history]
  simp

/-- C5: for every history length at least 1, every `k` between 1 and the
history length, and every live buffer content: starting from cursor index
`-1`, pressing ArrowUp `k` times followed by ArrowDown `k` times leaves
the buffer equal to the original live buffer and the cursor index back at
`-1`. -/
theorem C5_roundtrip (s : TermState) (k : Nat) (h0 : s.historyIndex = -1)
    (h1 : 1 ≤ k) (h2 : k ≤ s.commandHistory.length) :
    ((navigateHistory "down")^[k] ((navigateHistory "up")^[k] s)).buffer =
      s.buffer ∧
    ((navigateHistory "down")^[k]
      ((navigateHistory "up")^[k] s)).historyIndex = -1 := by
  have hn : s.commandHistory ≠ [] := by
    intro he
    rw [he] at h2
    simp at h2
    omega
  obtain ⟨j, rfl⟩ : ∃ j, k = j + 1 := ⟨k - 1, by omega⟩
  have hup1 := navHist_up_live s h0 hn
  have hups := navHist_ups j
    { s with historyIndex := 0, currentInput := s.buffer,
             buffer := s.commandHistory.getD 0 "" } 0
    rfl rfl
    (by show ((0 + j : Nat) : Int) ≤ (s.commandHistory.length : Int) - 1
        push_cast
        omega)
  have hfinal : (navigateHistory "down")^[j + 1]
      ((navigateHistory "up")^[j + 1] s) =
      { s with historyIndex := -1, buffer := s.buffer,
               currentInput := s.buffer } := by
    rw [show (navigateHistory "up")^[j + 1] s =
        (navigateHistory "up")^[j] (navigateHistory "up" s) from
      Function.iterate_succ_apply _ _ _]
    rw [hup1, hups]
    exact navHist_downs (j + 1) _ hn
      (by show ((0 + j : Nat) : Int) = ((j + 1 : Nat) : Int) - 1
          push_cast
          omega)
      (by omega)
  rw [hfinal]
  exact ⟨rfl, rfl⟩

/-- C5, witness: the round-trip theorem applied to a two-entry history
with live buffer `"live"` and `k = 2`. -/
theorem C5_roundtrip_witness :
    ((navigateHistory "down")^[2] ((navigateHistory "up")^[2]
      { initState with commandHistory := ["one", "two"],
                       buffer := "live" })).buffer =
      ({ initState with commandHistory := ["one", "two"],
                        buffer := "live" } : TermState).buffer ∧
    ((navigateHistory "down")^[2] ((navigateHistory "up")^[2]
      { initState with commandHistory := ["one", "two"],
                       buffer := "live" })).historyIndex = -1 :=
  C5_roundtrip
    { initState with commandHistory := ["one", "two"], buffer := "live" }
    2 rfl (by decide) (by decide)

/-- C6: when the history cursor is at the oldest entry (index equal to
history length minus 1), any number of further ArrowUp presses is a no-op
(the whole state, in particular buffer and cursor index, is unchanged);
and ArrowUp keeps the index clamped: it never exceeds history length
minus 1. -/
theorem C6_oldest_noop :
    (∀ (s : TermState) (k : Nat),
        s.historyIndex = (s.commandHistory.length : Int) - 1 →
        (navigateHistory "up")^[k] s = s) ∧
    (∀ s : TermState,
        s.historyIndex ≤ (s.commandHistory.length : Int) - 1 →
        (navigateHistory "up" s).historyIndex ≤
          (s.commandHistory.length : Int) - 1) := by
  constructor
  · intro s k h
    exact Function.iterate_fixed (navHist_up_fixed s (by omega)) k
  · intro s h
    by_cases h0 : s.commandHistory.length = 0
    · have hfix : navigateHistory "up" s = s := by simp [navigateHistory, h0]
      rw [hfix]
      exact h
    rcases lt_or_le s.historyIndex ((s.commandHistory.length : Int) - 1)
      with hlt | hge
    · by_cases hm : s.historyIndex = -1
      · have hn : s.commandHistory ≠ [] := by
          intro he
          rw [he] at h0
          simp at h0
        rw [navHist_up_live s hm hn]
        show (0 : Int) ≤ (s.commandHistory.length : Int) - 1
        omega
      · rw [navHist_up_stepInt s hm hlt h0]
        show s.historyIndex + 1 ≤ (s.commandHistory.length : Int) - 1
        omega
    · rw [navHist_up_fixed s hge]
      exact h

/-- C6, witness: three ArrowUp presses at the oldest entry of a two-entry
history leave the state unchanged, and one ArrowUp press from index 0
keeps the index within bounds. -/
theorem C6_oldest_noop_witness :
    (navigateHistory "up")^[3]
      { initState with commandHistory := ["a", "b"], historyIndex := 1 } =
      { initState with commandHistory := ["a", "b"], historyIndex := 1 } ∧
    (navigateHistory "up"
      { initState with commandHistory := ["a", "b"],
                       historyIndex := 0 }).historyIndex ≤
      ((({ initState with commandHistory := ["a", "b"], historyIndex := 0 } :
          TermState).commandHistory.length : Int) - 1) :=
  ⟨C6_oldest_noop.1 _ 3 (by decide), C6_oldest_noop.2 _ (by decide)⟩

/-- C7, counterexample: with buffer `"ke"`, Tab emits the line listing
`keybindings, keys` only — `bindings` does not start with `"ke"`, so the
claimed listing `keybindings, keys, bindings` is wrong. -/
theorem C7_counterexample :
    (autoComplete { initState with buffer := "ke" }).output =
      [OutputLine.text "Possible completions: keybindings, keys"
        "directory"] ∧
    "Possible completions: keybindings, keys" ≠
      "Possible completions: keybindings, keys, bindings" :=
  ⟨rfl, by decide⟩

/-- C7 (amended): on Tab, for every buffer: if the trimmed buffer is
non-empty and exactly one alias starts with its lower-cased form, the
buffer is replaced by that alias plus a single trailing space (so `"hel"`
becomes `"help "`); if more than one alias matches, the buffer is
unchanged and one informational line listing all matches comma-separated
in table order (the order of `availableCommands`, which the filter
preserves) is emitted (so `"ke"` emits a line listing
`keybindings, keys`); if the buffer is empty or no alias matches, nothing
happens and no error is emitted. -/
theorem C7_tab (s : TermState) :
    (jsTrim s.buffer = "" → autoComplete s = s) ∧
    (availableCommands.filter
        (fun c => jsStartsWith c (jsToLower (jsTrim s.buffer))) = [] →
      autoComplete s = s) ∧
    (¬ jsTrim s.buffer = "" → ∀ m : String,
      availableCommands.filter
        (fun c => jsStartsWith c (jsToLower (jsTrim s.buffer))) = [m] →
      autoComplete s = { s with buffer := m ++ " " }) ∧
    (¬ jsTrim s.buffer = "" → ∀ (m1 m2 : String) (ms : List String),
      availableCommands.filter
        (fun c => jsStartsWith c (jsToLower (jsTrim s.buffer))) =
          m1 :: m2 :: ms →
      autoComplete s =
        { s with
          output := s.output ++
            [OutputLine.text ("Possible completions: " ++
              jsJoin ", " (m1 :: m2 :: ms)) "directory"],
          trace := s.trace ++
            [LogOp.append (OutputLine.text ("Possible completions: " ++
              jsJoin ", " (m1 :: m2 :: ms)) "directory")] }) := by
  refine ⟨?_, ?_, ?_, ?_⟩
  · intro h
    simp [autoComplete, h]
  · intro h
    by_cases he : jsTrim s.buffer = ""
    · simp [autoComplete, he]
    · simp [autoComplete, he, h]
  · intro hne m hm
    simp [autoComplete, hne, hm]
  · intro hne m1 m2 ms hm
    simp [autoComplete, hne, hm, addTextOutput]

/-- C7, witness: the Tab theorem applied at the empty buffer, a
no-match buffer `"zz"`, the single-match buffer `"hel"` and the
multi-match buffer `"ke"`. -/
theorem C7_tab_witness :
    autoComplete initState = initState ∧
    autoComplete { initState with buffer := "zz" } =
      { initState with buffer := "zz" } ∧
    autoComplete { initState with buffer := "hel" } =
      { initState with buffer := "help " } ∧
    autoComplete { initState with buffer := "ke" } =
      { initState with
        buffer := "ke",
        output := [OutputLine.text "Possible completions: keybindings, keys"
          "directory"],
        trace := [LogOp.append (OutputLine.text
          "Possible completions: keybindings, keys" "directory")] } :=
  ⟨(C7_tab initState).1 rfl,
   (C7_tab { initState with buffer := "zz" }).2.1 rfl,
   (C7_tab { initState with buffer := "hel" }).2.2.1 (by decide) "help" rfl,
   (C7_tab { initState with buffer := "ke" }).2.2.2 (by decide)
     "keybindings" "keys" [] rfl⟩

/-- C8: processing a command that matches no switch case and does not
start with the `"echo "` prefix (for example `frobnicate`) appends exactly
two output lines — an error-styled `Command not found: <original text>`
line with the original-case text, then the hint line
`Type "help" for available commands` — and leaves the visible section and
the active navigation entry unchanged. -/
theorem C8_unknown (s : TermState) (c : String)
    (h1 : jsToLower c ∉ switchCases)
    (h2 : jsStartsWith (jsToLower c) "echo " = false) :
    (processCommand c s).output = s.output ++
      [OutputLine.text ("Command not found: " ++ c) "error",
       OutputLine.text "Type \"help\" for available commands" ""] ∧
    (processCommand c s).visibleSections = s.visibleSections ∧
    (processCommand c s).activeNav = s.activeNav := by
  simp only [switchCases, List.mem_cons, List.not_mem_nil, or_false,
    not_or] at h1
  obtain ⟨n1, n2, n3, n4, n5, n6, n7, n8, n9, n10, n11, n12, n13, n14⟩ := h1
  have k1 : ¬ (jsToLower c = "keybindings" ∨ jsToLower c = "keys" ∨
      jsToLower c = "bindings") := by simp [n8, n9, n10]
  have k2 : ¬ (jsToLower c = "projects" ∨ jsToLower c = "friendly" ∨
      jsToLower c = "friends") := by simp [n11, n12, n13]
  have k3 : ¬ (jsStartsWith (jsToLower c) "echo " = true) := by simp [h2]
  unfold processCommand
  rw [if_neg n1, if_neg n2, if_neg n3, if_neg n4, if_neg n5, if_neg n6,
    if_neg n7, if_neg k1, if_neg k2, if_neg n14, if_neg k3]
  simp [addTextOutput]

/-- C8, witness: the unknown-command theorem applied to `frobnicate` at
the initial state. -/
theorem C8_unknown_witness :
    (processCommand "frobnicate" initState).output =
      initState.output ++
        [OutputLine.text ("Command not found: " ++ "frobnicate") "error",
         OutputLine.text "Type \"help\" for available commands" ""] ∧
    (processCommand "frobnicate" initState).visibleSections =
      initState.visibleSections ∧
    (processCommand "frobnicate" initState).activeNav =
      initState.activeNav :=
  C8_unknown initState "frobnicate" (by decide) (by decide)

/-- C9: submitting `clear`, whatever the prior state (in particular after
any prior sequence of submissions), leaves the output log containing only
the standing input line: every previously appended entry, including the
echo of the `clear` command itself, is removed, and the clear action
appends no output of its own. -/
theorem C9_clear_output (s : TermState) :
    (submit { s with buffer := "clear" }).output = [] := rfl

/-- C10: submitting the bare word `echo` — with or without trailing
whitespace, which the submission-time trim removes — matches no exact
alias and not the `"echo "` prefix rule, so it resolves to the
unrecognized-command branch and appends `Command not found: echo` plus the
hint line, even though `echo` is listed as an autocomplete candidate. -/
theorem C10_bare_echo :
    (submit { initState with buffer := "echo" }).output =
      [OutputLine.echo "echo",
       OutputLine.text "Command not found: echo" "error",
       OutputLine.text "Type \"help\" for available commands" ""] ∧
    (submit { initState with buffer := "echo   " }).output =
      [OutputLine.echo "echo",
       OutputLine.text "Command not found: echo" "error",
       OutputLine.text "Type \"help\" for available commands" ""] ∧
    "echo" ∈ availableCommands :=
  ⟨rfl, rfl, by decide⟩
